import Mathlib

/-! Shallow embedding of the youtube summarization repository:
    the Gemini output parser (`_parse_gemini_output` in
    `youtube-summarizer/src/analyzer.py`), the timestamp codec
    (`format_timestamp` in `youtube-summarizer/src/utils.py`), the
    audio-analysis poll loop (`analyze_audio` in `auto_scraper.py`,
    `agent_scraper.py` and `analyzer.py`) and the Plan A / Plan B
    acquisition orchestration (`main` in `youtube-summarizer/main.py`
    and `run_agent` in `agent_scraper.py`).

    Python strings are modelled as lists of unicode code points; the
    concrete regular expressions of the source are compiled by hand into
    scanning functions with the exact semantics of `re.search` /
    `re.match` on those patterns (leftmost match, greedy or lazy
    repetition as written, `IGNORECASE` and `DOTALL` flags as used at
    each call site). -/

namespace YTSum

/-- Python strings as lists of unicode code points. -/
abbrev Str := List Char

/-- Code points Python treats as whitespace (`str.strip`, regex class
    `\s` on unicode strings). -/
def pySpaceCodes : List Nat :=
  [9, 10, 11, 12, 13, 28, 29, 30, 31, 32, 133, 160, 0x1680,
   0x2000, 0x2001, 0x2002, 0x2003, 0x2004, 0x2005, 0x2006, 0x2007,
   0x2008, 0x2009, 0x200a, 0x2028, 0x2029, 0x202f, 0x205f, 0x3000]

/-- Python whitespace test on one character. -/
def isPySpace (c : Char) : Bool := pySpaceCodes.contains c.toNat

/-- Python `str.strip()`: drop leading and trailing whitespace. -/
def pyStrip (s : Str) : Str :=
  ((s.dropWhile isPySpace).reverse.dropWhile isPySpace).reverse

/-- Python `str.split(sep)` for a one-character separator: split on every
    occurrence, keeping empty pieces; the result is never empty. -/
def splitOnChar (sep : Char) : Str → List Str
  | [] => [[]]
  | c :: r =>
    if c = sep then [] :: splitOnChar sep r
    else
      match splitOnChar sep r with
      | l :: ls => (c :: l) :: ls
      | [] => [[c]]

/-- Python `str.split('\n')`. -/
def splitLines (s : Str) : List Str := splitOnChar '\n' s

/-- `gemini_output.split('\n')[0]`. -/
def firstLine (s : Str) : Str :=
  match splitLines s with
  | l :: _ => l
  | [] => []

/-- Does the line start with the heading marker `##`
    (the `(?!##)` test of the title fallback)? -/
def startsHH : Str → Bool
  | '#' :: '#' :: _ => true
  | _ => false

/-- Match a literal pattern case-insensitively (`re.IGNORECASE`): the
    pattern is stored lowercase, each subject character is lowered before
    comparison.  Returns the rest of the subject after the literal. -/
def matchLitCI : Str → Str → Option Str
  | [], s => some s
  | _ :: _, [] => none
  | p :: ps, c :: cs => if c.toLower = p then matchLitCI ps cs else none

/-- `re.search` driver: try the compiled pattern at every position, left
    to right, and return the first success. -/
def searchFirst {α : Type} (tryAt : Str → Option α) : Str → Option α
  | [] => tryAt []
  | c :: r =>
    match tryAt (c :: r) with
    | some x => some x
    | none => searchFirst tryAt r

/-- The literal of the title regex `##\s*Title:\s*(.*)`, lowercased. -/
def titleLabel : Str := "title:".data

/-- The literal of the executive-summary regex
    `##\s*📝 Executive Summary\n…`, lowercased. -/
def execLabel : Str := "📝 executive summary".data

/-- The literal of the key-topics regex
    `##\s*⏱️ Key Topics & Timestamps\n…`, lowercased. -/
def ktLabel : Str := "⏱️ key topics & timestamps".data

/-- One attempt of `##\s*Title:\s*(.*)` (re.IGNORECASE) at a fixed
    position; on success returns the capture of `(.*)`: the maximal
    whitespace run after `Title:` is consumed greedily by `\s*` and the
    capture extends to the next newline or the end of the text. -/
def tryTitleAt (s : Str) : Option Str :=
  match s with
  | c1 :: c2 :: r =>
    if c1 = '#' then
      if c2 = '#' then
        match matchLitCI titleLabel (r.dropWhile isPySpace) with
        | some r2 => some ((r2.dropWhile isPySpace).takeWhile (fun c => c != '\n'))
        | none => none
      else none
    else none
  | _ => none

/-- Does the lookahead `\n\n##\s*⏱️ Key Topics & Timestamps` of the
    executive-summary regex match at this position? -/
def ktStopperAt (s : Str) : Bool :=
  match s with
  | c1 :: c2 :: c3 :: c4 :: r =>
    if c1 = '\n' then
      if c2 = '\n' then
        if c3 = '#' then
          if c4 = '#' then (matchLitCI ktLabel (r.dropWhile isPySpace)).isSome
          else false
        else false
      else false
    else false
  | _ => false

/-- The lazy capture `(.*?)` (re.DOTALL) of the executive-summary regex:
    grow from the empty string until the lookahead
    `(?=\n\n##\s*⏱️ Key Topics & Timestamps|\Z)` holds. -/
def execCapture : Str → Str
  | [] => []
  | c :: rest => if ktStopperAt (c :: rest) then [] else c :: execCapture rest

/-- One attempt of `##\s*📝 Executive Summary\n(.*?)(?=\n\n##\s*⏱️ Key
    Topics & Timestamps|\Z)` (re.DOTALL | re.IGNORECASE) at a fixed
    position; on success returns the capture of `(.*?)`. -/
def tryExecAt (s : Str) : Option Str :=
  match s with
  | c1 :: c2 :: r =>
    if c1 = '#' then
      if c2 = '#' then
        match matchLitCI execLabel (r.dropWhile isPySpace) with
        | some r2 =>
          match r2 with
          | c3 :: body => if c3 = '\n' then some (execCapture body) else none
          | [] => none
        | none => none
      else none
    else none
  | _ => none

/-- One attempt of `##\s*⏱️ Key Topics & Timestamps\n(.*)`
    (re.DOTALL | re.IGNORECASE) at a fixed position; on success returns
    the capture of `(.*)`, i.e. everything after the heading newline. -/
def tryKTAt (s : Str) : Option Str :=
  match s with
  | c1 :: c2 :: r =>
    if c1 = '#' then
      if c2 = '#' then
        match matchLitCI ktLabel (r.dropWhile isPySpace) with
        | some r2 =>
          match r2 with
          | c3 :: body => if c3 = '\n' then some body else none
          | [] => none
        | none => none
      else none
    else none
  | _ => none

/-- The long alternative `\d{2}:\d{2}:\d{2}` of the bullet timestamp
    group: on success returns the captured characters and the rest. -/
def tsLong : Str → Option (Str × Str)
  | a :: b :: c1 :: c :: d :: c2 :: e :: f :: r =>
    if c1 = ':' then
      if c2 = ':' then
        if a.isDigit && b.isDigit && c.isDigit && d.isDigit && e.isDigit && f.isDigit
        then some ([a, b, ':', c, d, ':', e, f], r) else none
      else none
    else none
  | _ => none

/-- The short alternative `\d{2}:\d{2}` of the bullet timestamp group. -/
def tsShort : Str → Option (Str × Str)
  | a :: b :: c1 :: c :: d :: r =>
    if c1 = ':' then
      if a.isDigit && b.isDigit && c.isDigit && d.isDigit
      then some ([a, b, ':', c, d], r) else none
    else none
  | _ => none

/-- After the timestamp group the bullet regex requires `]**`, then
    `\s*` consumes whitespace greedily and `(.*)` captures the rest of
    the line. -/
def bulletClose : Str × Str → Option (Str × Str)
  | (ts, r) =>
    match r with
    | c1 :: c2 :: c3 :: r2 =>
      if c1 = ']' then
        if c2 = '*' then
          if c3 = '*' then
            some (ts, (r2.dropWhile isPySpace).takeWhile (fun c => c != '\n'))
          else none
        else none
      else none
    | _ => none

/-- `re.match(r"^- \*\*\[(\d{2}:\d{2}(?::\d{2})?)\]\*\*\s*(.*)", line)`:
    anchored at the line start; the optional `(?::\d{2})?` is greedy, so
    the long timestamp form is tried first and the short form on
    backtracking.  Returns (timestamp capture, topic capture). -/
def bulletMatch (l : Str) : Option (Str × Str) :=
  match l with
  | c1 :: c2 :: c3 :: c4 :: c5 :: r =>
    if c1 = '-' then
      if c2 = ' ' then
        if c3 = '*' then
          if c4 = '*' then
            if c5 = '[' then
              match (tsLong r).bind bulletClose with
              | some v => some v
              | none => (tsShort r).bind bulletClose
            else none
          else none
        else none
      else none
    else none
  | _ => none

/-- Pydantic `KeyTopic` record. -/
structure KeyTopic where
  timestamp : Str
  topic : Str
deriving DecidableEq, Repr

/-- Pydantic `VideoAnalysis` record. -/
structure VideoAnalysis where
  title : Str
  executive_summary : Str
  key_topics : List KeyTopic
deriving DecidableEq, Repr

/-- The title extraction of `_parse_gemini_output`:
    `re.search(r"##\s*Title:\s*(.*)", g, re.IGNORECASE)`, raw capture. -/
def titleRegexOf (g : Str) : Option Str := searchFirst tryTitleAt g

/-- The executive-summary extraction of `_parse_gemini_output`: the
    stripped capture of the summary regex, or the empty string. -/
def execSummaryOf (g : Str) : Str :=
  match searchFirst tryExecAt g with
  | some cap => pyStrip cap
  | none => []

/-- The key-topics extraction of `_parse_gemini_output`: find the
    section, split it into lines, strip each line and collect every
    bullet match in order. -/
def keyTopicsOf (g : Str) : List KeyTopic :=
  match searchFirst tryKTAt g with
  | some sect =>
    (splitLines sect).filterMap fun line =>
      (bulletMatch (pyStrip line)).map fun p => ⟨p.1, pyStrip p.2⟩
  | none => []

/-- The ellipsis appended by the title truncation fallbacks. -/
def ellipsis : Str := "...".data

/-- `_parse_gemini_output` of `youtube-summarizer/src/analyzer.py`:
    regex extraction of title, executive summary and key topics,
    followed by the ordered title fallback chain (first line of the raw
    text, first sentence of the summary truncated at 97 characters,
    first 100 characters of the summary). -/
def parseGeminiOutput (g : Str) : VideoAnalysis :=
  let title0 : Str :=
    match titleRegexOf g with
    | some cap => pyStrip cap
    | none => []
  let executive_summary := execSummaryOf g
  let key_topics := keyTopicsOf g
  let fl := firstLine g
  let title1 : Str :=
    if title0 = [] then (if startsHH fl then title0 else pyStrip fl) else title0
  let title2 : Str :=
    if title1 = [] ∧ executive_summary ≠ [] then
      let fs := pyStrip (executive_summary.takeWhile (fun c => c != '.'))
      if fs ≠ [] then
        (if fs.length > 100 then fs.take 97 ++ ellipsis else fs)
      else title1
    else title1
  let title3 : Str :=
    if title2 = [] ∧ executive_summary ≠ [] then
      (if executive_summary.length > 100 then executive_summary.take 100 ++ ellipsis
       else executive_summary)
    else title2
  ⟨title3, executive_summary, key_topics⟩

/-- The title fallback chain as the (amended) specification words it:
    (a) the stripped first line when it does not start with `##` and
    strips to nonempty; (b) otherwise, with a nonempty extracted summary
    whose text before the first period strips to nonempty, that text,
    truncated to 97 characters plus an ellipsis when longer than 100;
    (c) otherwise, with a nonempty extracted summary, the whole summary
    when at most 100 characters, else its first 100 characters plus an
    ellipsis. -/
def titleFallbackChain (g : Str) : Str :=
  let fl := firstLine g
  let a : Str := if startsHH fl then [] else pyStrip fl
  if a ≠ [] then a
  else
    let es := execSummaryOf g
    if es = [] then []
    else
      let fs := pyStrip (es.takeWhile (fun c => c != '.'))
      if fs ≠ [] then
        (if fs.length > 100 then fs.take 97 ++ ellipsis else fs)
      else
        (if es.length > 100 then es.take 100 ++ ellipsis else es)

/-- Does the executive-summary terminator (blank line followed by the
    key-topics heading) occur anywhere in the text? -/
def hasStopper : Str → Bool
  | [] => false
  | c :: r => ktStopperAt (c :: r) || hasStopper r

/-- The exact executive-summary heading produced by the prompt
    template. -/
def execHdr : Str := "## 📝 Executive Summary\n".data

/-- Does a string have the shape `\d{2}:\d{2}` or `\d{2}:\d{2}:\d{2}`
    (the KeyTopic timestamp invariant)? -/
def tsShapeOK : Str → Bool
  | [a, b, c1, c, d] =>
    c1 = ':' && a.isDigit && b.isDigit && c.isDigit && d.isDigit
  | [a, b, c1, c, d, c2, e, f] =>
    c1 = ':' && c2 = ':' && a.isDigit && b.isDigit && c.isDigit && d.isDigit &&
    e.isDigit && f.isDigit
  | _ => false

/-- The decimal digit character for a value below ten. -/
def digitChar (n : Nat) : Char := Char.ofNat (48 + n)

/-- Decimal rendering of a natural number, fuel-indexed so that the
    recursion is structural (the fuel bounds the value). -/
def natReprAux : Nat → Nat → Str
  | 0, _ => []
  | fuel + 1, n =>
    if n < 10 then [digitChar n]
    else natReprAux fuel (n / 10) ++ [digitChar (n % 10)]

/-- Decimal rendering of a natural number. -/
def natRepr (n : Nat) : Str := natReprAux (n + 1) n

/-- Python `f"{n:02d}"`: decimal rendering zero-padded to a minimum
    width of two (the sign counts toward the width). -/
def pad2 (n : Int) : Str :=
  if n < 0 then '-' :: natRepr (-n).toNat
  else if n < 10 then '0' :: natRepr n.toNat
  else natRepr n.toNat

/-- Python `int()` on a rational value: truncation toward zero. -/
def pyInt (q : ℚ) : Int := if 0 ≤ q then ⌊q⌋ else ⌈q⌉

/-- The body of `format_timestamp` after `seconds = int(seconds)`:
    Python `divmod` is floor division, which for the positive divisors
    here is `Int.ediv` / `Int.emod`. -/
def formatTimestampInt (seconds : Int) : Str :=
  if 0 < seconds / 60 / 60 then
    pad2 (seconds / 60 / 60) ++
      ':' :: pad2 (seconds / 60 % 60) ++ ':' :: pad2 (seconds % 60)
  else pad2 (seconds / 60 % 60) ++ ':' :: pad2 (seconds % 60)

/-- `format_timestamp(seconds)` of `youtube-summarizer/src/utils.py`:
    truncate the float to an integer and render `HH:MM:SS` when the
    hour part is positive, else `MM:SS`. -/
def formatTimestamp (q : ℚ) : Str := formatTimestampInt (pyInt q)

/-- Parse one timestamp field: a nonempty all-digit string read as a
    decimal number. -/
def parseField (cs : Str) : Option Nat :=
  match cs with
  | [] => none
  | _ :: _ =>
    if cs.all Char.isDigit then
      some (cs.foldl (fun a c => a * 10 + (c.toNat - 48)) 0)
    else none

/-- Re-parse a rendered timestamp as `H:M:S` (three fields) or `M:S`
    (two fields) and recompute total seconds, as the specification's
    round-trip property words it. -/
def reparseTimestamp (t : Str) : Option Int :=
  match splitOnChar ':' t with
  | [m, s] =>
    match parseField m, parseField s with
    | some mv, some sv => some ((mv : Int) * 60 + sv)
    | _, _ => none
  | [h, m, s] =>
    match parseField h, parseField m, parseField s with
    | some hv, some mv, some sv => some ((hv : Int) * 3600 + (mv : Int) * 60 + sv)
    | _, _, _ => none
  | _ => none

/-- One transcript segment (pydantic `TranscriptSegment`). -/
structure TranscriptSeg where
  start : ℚ
  text : Str

/-- Environment of one Plan B attempt: what the external collaborators
    would answer if invoked.  `downloadResult` is the return value of
    `download_audio` (`None` on failure), `fileExists` the
    `os.path.exists` test on the produced path, `analyzeResult` the
    outcome of `analyze_audio` (an exception or a parsed analysis). -/
structure PlanBEnv where
  downloadResult : Option Str
  fileExists : Bool
  analyzeResult : Except Str VideoAnalysis

/-- Outcome of one Plan B attempt: the produced analysis, if any, and
    whether the local audio file was deleted. -/
structure PlanBOutcome where
  result : Option VideoAnalysis
  audioFileDeleted : Bool
deriving DecidableEq, Repr

/-- Plan B of `run_agent` in `agent_scraper.py`: `os.remove` runs only
    after `analyze_audio` returns normally; an exception from it is
    caught by the enclosing `except`, which returns `None` without any
    cleanup. -/
def agentPlanB (env : PlanBEnv) : PlanBOutcome :=
  match env.downloadResult with
  | some _ =>
    if env.fileExists then
      match env.analyzeResult with
      | .ok a => ⟨some a, true⟩
      | .error _ => ⟨none, false⟩
    else ⟨none, false⟩
  | none => ⟨none, false⟩

/-- Plan B of `main` in `youtube-summarizer/main.py`: the whole attempt
    is wrapped in `try/except/finally` and the `finally` block removes
    the temporary audio file whenever it exists, on success, parse
    failure and exception alike. -/
def mainPlanB (env : PlanBEnv) : PlanBOutcome :=
  let result : Option VideoAnalysis :=
    match env.downloadResult with
    | some _ =>
      if env.fileExists then
        match env.analyzeResult with
        | .ok a => some a
        | .error _ => none
      else none
    | none => none
  ⟨result, env.fileExists⟩

/-- Environment of one orchestrated run: the transcript fetch outcome
    (an exception or a segment list), the text-analysis outcome when it
    is invoked, and the Plan B environment. -/
structure RunEnv where
  transcriptResult : Except Str (List TranscriptSeg)
  textAnalysis : Except Str VideoAnalysis
  planB : PlanBEnv

/-- Outcome of one orchestrated run: the produced analysis, whether the
    Audio Acquirer (`download_audio`) was invoked, and whether the local
    audio file was deleted when Plan B ran. -/
structure RunOutcome where
  result : Option VideoAnalysis
  audioInvoked : Bool
  audioFileDeleted : Bool

/-- Entering Plan B in `main.py`: the Audio Acquirer is invoked. -/
def mainPlanBStep (env : RunEnv) : RunOutcome :=
  let o := mainPlanB env.planB
  ⟨o.result, true, o.audioFileDeleted⟩

/-- `main` of `youtube-summarizer/main.py`: Plan A fetches the
    transcript; a nonempty segment list is analyzed as text and success
    ends the run; an empty list, a fetch exception or an analysis
    exception all fall through to Plan B. -/
def mainRun (env : RunEnv) : RunOutcome :=
  match env.transcriptResult with
  | .ok segs =>
    match segs with
    | [] => mainPlanBStep env
    | _ :: _ =>
      match env.textAnalysis with
      | .ok a => ⟨some a, false, false⟩
      | .error _ => mainPlanBStep env
  | .error _ => mainPlanBStep env

/-- Entering Plan B in `agent_scraper.py`. -/
def agentPlanBStep (env : RunEnv) : RunOutcome :=
  let o := agentPlanB env.planB
  ⟨o.result, true, o.audioFileDeleted⟩

/-- `run_agent` of `agent_scraper.py`: Plan A fetches and analyzes the
    transcript (with no emptiness check) and returns on success; any
    exception falls through to Plan B. -/
def agentRun (env : RunEnv) : RunOutcome :=
  match env.transcriptResult with
  | .ok _ =>
    match env.textAnalysis with
    | .ok a => ⟨some a, false, false⟩
    | .error _ => agentPlanBStep env
  | .error _ => agentPlanBStep env

/-- Processing states of a file uploaded to the model service. -/
inductive GFileState where
  | processing
  | active
  | failed
deriving DecidableEq, Repr

/-- The `while audio_file.state.name == "PROCESSING"` poll loop, driven
    by the state returned by the upload and the successive `get_file`
    answers; `none` models a poll sequence that never leaves the
    processing state. -/
def pollLoop : GFileState → List GFileState → Option GFileState
  | .processing, [] => none
  | .processing, s :: rest => pollLoop s rest
  | st, _ => some st

/-- Result of one audio-analysis call: whether the generation request
    was submitted, and the returned value or raised error. -/
structure AudioCallResult (α : Type) where
  submitted : Bool
  outcome : Except Str α
deriving Repr

/-- The message of the `ValueError` raised by `auto_scraper.py` when the
    uploaded file ends in the FAILED state. -/
def audioFailedMsg : Str := "Audio file processing failed".data

/-- `analyze_audio` of `auto_scraper.py`: poll until the state leaves
    PROCESSING, raise on FAILED, otherwise submit the generation request
    and return the raw response text. -/
def autoAnalyzeAudio (init : GFileState) (upds : List GFileState) (genText : Str) :
    Option (AudioCallResult Str) :=
  match pollLoop init upds with
  | none => none
  | some st =>
    if st = .failed then some ⟨false, .error audioFailedMsg⟩
    else some ⟨true, .ok genText⟩

/-- `analyze_audio` of `youtube-summarizer/src/analyzer.py`: poll until
    the state leaves PROCESSING, then submit the generation request
    unconditionally (no FAILED check) and parse the response. -/
def analyzerAnalyzeAudio (init : GFileState) (upds : List GFileState) (genText : Str) :
    Option (AudioCallResult VideoAnalysis) :=
  match pollLoop init upds with
  | none => none
  | some _ => some ⟨true, .ok (parseGeminiOutput genText)⟩

/-- `analyze_audio` of `agent_scraper.py`: identical control flow to the
    analyzer version, also with no FAILED check. -/
def agentAnalyzeAudio (init : GFileState) (upds : List GFileState) (genText : Str) :
    Option (AudioCallResult VideoAnalysis) :=
  match pollLoop init upds with
  | none => none
  | some _ => some ⟨true, .ok (parseGeminiOutput genText)⟩

/-! Helper lemmas about the string functions of the embedding. -/

theorem splitOnChar_ne_nil (sep : Char) (s : Str) : splitOnChar sep s ≠ [] := by
  cases s with
  | nil => simp [splitOnChar]
  | cons c r =>
    simp only [splitOnChar]
    split
    · exact List.cons_ne_nil _ _
    · split <;> exact List.cons_ne_nil _ _

theorem splitOnChar_append (sep : Char) (a b : Str) :
    splitOnChar sep (a ++ sep :: b) = splitOnChar sep a ++ splitOnChar sep b := by
  induction a with
  | nil => simp [splitOnChar]
  | cons c r ih =>
    by_cases hc : c = sep
    · subst hc
      simp [splitOnChar, ih]
    · simp only [List.cons_append, splitOnChar, if_neg hc, List.append_eq]
      rw [ih]
      cases hsr : splitOnChar sep r with
      | nil => exact absurd hsr (splitOnChar_ne_nil sep r)
      | cons l ls => simp

theorem splitOnChar_no_sep (sep : Char) (s : Str) (h : ∀ c ∈ s, c ≠ sep) :
    splitOnChar sep s = [s] := by
  induction s with
  | nil => rfl
  | cons c r ih =>
    have hc : c ≠ sep := h c (by simp)
    have hr : splitOnChar sep r = [r] := ih (fun x hx => h x (by simp [hx]))
    simp [splitOnChar, if_neg hc, hr]

theorem matchLitCI_decomp (p : Str) :
    ∀ s r : Str, matchLitCI p s = some r → ∃ pre, s = pre ++ r := by
  induction p with
  | nil =>
    intro s r h
    simp only [matchLitCI, Option.some.injEq] at h
    exact ⟨[], by rw [h]; rfl⟩
  | cons pc pr ih =>
    intro s r h
    cases s with
    | nil => simp [matchLitCI] at h
    | cons c cs =>
      simp only [matchLitCI] at h
      split at h
      · obtain ⟨pre, hp⟩ := ih cs r h
        exact ⟨c :: pre, by rw [hp]; rfl⟩
      · simp at h

theorem searchFirst_decomp {α : Type} (tryAt : Str → Option α) :
    ∀ (s : Str) (x : α), searchFirst tryAt s = some x →
      ∃ a b, s = a ++ b ∧ tryAt b = some x := by
  intro s
  induction s with
  | nil =>
    intro x h
    exact ⟨[], [], rfl, by simpa [searchFirst] using h⟩
  | cons c r ih =>
    intro x h
    simp only [searchFirst] at h
    cases htry : tryAt (c :: r) with
    | some y =>
      rw [htry] at h
      exact ⟨[], c :: r, rfl, by rw [htry]; exact h⟩
    | none =>
      rw [htry] at h
      obtain ⟨a, b, hab, hb⟩ := ih x h
      exact ⟨c :: a, b, by rw [hab]; rfl, hb⟩

theorem tryKTAt_decomp (s body : Str) (h : tryKTAt s = some body) :
    ∃ pre, s = pre ++ '\n' :: body := by
  cases s with
  | nil => simp [tryKTAt] at h
  | cons c1 s1 =>
    cases s1 with
    | nil => simp [tryKTAt] at h
    | cons c2 r =>
      simp only [tryKTAt] at h
      split at h
      case isFalse => simp at h
      case isTrue h1 =>
        split at h
        case isFalse => simp at h
        case isTrue h2 =>
          cases hm : matchLitCI ktLabel (r.dropWhile isPySpace) with
          | none => rw [hm] at h; simp at h
          | some r2 =>
            rw [hm] at h
            cases r2 with
            | nil => simp at h
            | cons c3 b2 =>
              simp only [] at h
              split at h
              case isFalse => simp at h
              case isTrue h3 =>
                have hb2 : b2 = body := by
                  simpa using h
                obtain ⟨pre0, hp⟩ := matchLitCI_decomp _ _ _ hm
                refine ⟨c1 :: c2 :: (r.takeWhile isPySpace ++ pre0), ?_⟩
                subst h1 h2 h3
                rw [← hb2]
                have hr : r.takeWhile isPySpace ++ r.dropWhile isPySpace = r :=
                  List.takeWhile_append_dropWhile ..
                calc ('#' : Char) :: '#' :: r
                    = '#' :: '#' :: (r.takeWhile isPySpace ++ r.dropWhile isPySpace) := by
                      rw [hr]
                  _ = '#' :: '#' :: (r.takeWhile isPySpace ++ (pre0 ++ '\n' :: b2)) := by
                      rw [hp]
                  _ = ('#' :: '#' :: (r.takeWhile isPySpace ++ pre0)) ++ '\n' :: b2 := by
                      simp

theorem mem_splitLines_section (g sect l : Str)
    (hg : searchFirst tryKTAt g = some sect) (hl : l ∈ splitLines sect) :
    l ∈ splitLines g := by
  obtain ⟨a, b, hab, hb⟩ := searchFirst_decomp tryKTAt g sect hg
  obtain ⟨pre, hpre⟩ := tryKTAt_decomp b sect hb
  have hgeq : g = (a ++ pre) ++ '\n' :: sect := by
    rw [hab, hpre]; simp
  rw [hgeq]
  unfold splitLines
  rw [splitOnChar_append]
  exact List.mem_append_right _ hl

theorem execCapture_no_stopper (b : Str) (h : hasStopper b = false) :
    execCapture b = b := by
  induction b with
  | nil => rfl
  | cons c r ih =>
    simp only [hasStopper, Bool.or_eq_false_iff] at h
    simp [execCapture, h.1, ih h.2]

theorem keyTopicsOf_eq_nil (g : Str)
    (h : ∀ l ∈ splitLines g, bulletMatch (pyStrip l) = none) :
    keyTopicsOf g = [] := by
  unfold keyTopicsOf
  cases hkt : searchFirst tryKTAt g with
  | none => simp
  | some sect =>
    simp only []
    rw [List.filterMap_eq_nil_iff]
    intro line hline
    rw [h line (mem_splitLines_section g sect line hkt hline)]
    rfl

/-! Lemmas about the bullet matcher's timestamp shapes. -/

theorem tsLong_shape (r : Str) (p : Str × Str) (h : tsLong r = some p) :
    tsShapeOK p.1 = true := by
  unfold tsLong at h
  split at h
  next a b c1 c d c2 e f rest =>
    split at h
    next h1 =>
      split at h
      next h2 =>
        split at h
        next h3 =>
          simp only [Option.some.injEq] at h
          subst h
          simp only [Bool.and_eq_true] at h3
          simp [tsShapeOK, h3.1.1.1.1.1, h3.1.1.1.1.2, h3.1.1.1.2, h3.1.1.2, h3.1.2,
            h3.2]
        next _ => simp at h
      next _ => simp at h
    next _ => simp at h
  next => simp at h

theorem tsShort_shape (r : Str) (p : Str × Str) (h : tsShort r = some p) :
    tsShapeOK p.1 = true := by
  unfold tsShort at h
  split at h
  next a b c1 c d rest =>
    split at h
    next h1 =>
      split at h
      next h2 =>
        simp only [Option.some.injEq] at h
        subst h
        simp only [Bool.and_eq_true] at h2
        simp [tsShapeOK, h2.1.1.1, h2.1.1.2, h2.1.2, h2.2]
      next _ => simp at h
    next _ => simp at h
  next => simp at h

theorem bulletClose_fst (pr q : Str × Str) (h : bulletClose pr = some q) :
    q.1 = pr.1 := by
  obtain ⟨ts, r⟩ := pr
  unfold bulletClose at h
  repeat' split at h
  all_goals simp_all
  exact (congrArg Prod.fst h).symm

theorem bulletMatch_shape (l : Str) (p : Str × Str) (h : bulletMatch l = some p) :
    tsShapeOK p.1 = true := by
  unfold bulletMatch at h
  split at h
  next c1 c2 c3 c4 c5 r =>
    repeat' split at h
    all_goals first
      | exact Option.noConfusion h
      | (injection h with h2
         subst h2
         rename_i v heq
         obtain ⟨pl, hpl, hcl⟩ := Option.bind_eq_some.mp heq
         rw [bulletClose_fst pl _ hcl]
         exact tsLong_shape r pl hpl)
      | (obtain ⟨pl, hpl, hcl⟩ := Option.bind_eq_some.mp h
         rw [bulletClose_fst pl p hcl]
         exact tsShort_shape r pl hpl)
  next => simp at h

theorem keyTopicsOf_shape (g : Str) (kt : KeyTopic) (h : kt ∈ keyTopicsOf g) :
    tsShapeOK kt.timestamp = true := by
  unfold keyTopicsOf at h
  cases hkt : searchFirst tryKTAt g with
  | none => rw [hkt] at h; simp at h
  | some sect =>
    rw [hkt] at h
    simp only [List.mem_filterMap] at h
    obtain ⟨line, hline, hmap⟩ := h
    obtain ⟨pr, hbm, hkteq⟩ := Option.map_eq_some'.mp hmap
    subst hkteq
    exact bulletMatch_shape _ pr hbm

/-! Lemmas about the decimal rendering and the timestamp round trip. -/

theorem digitChar_isDigit (n : Nat) (h : n < 10) : (digitChar n).isDigit = true := by
  interval_cases n <;> decide

theorem digitChar_toNat (n : Nat) (h : n < 10) : (digitChar n).toNat = 48 + n := by
  interval_cases n <;> decide

theorem natReprAux_spec (fuel : Nat) :
    ∀ n : Nat, n < fuel →
      (natReprAux fuel n).all Char.isDigit = true ∧ natReprAux fuel n ≠ [] ∧
      (natReprAux fuel n).foldl (fun a c => a * 10 + (c.toNat - 48)) 0 = n := by
  induction fuel with
  | zero => intro n h; omega
  | succ f ih =>
    intro n h
    by_cases h10 : n < 10
    · simp only [natReprAux, if_pos h10]
      refine ⟨by simp [digitChar_isDigit n h10], by simp, ?_⟩
      simp only [List.foldl]
      rw [digitChar_toNat n h10]
      omega
    · simp only [natReprAux, if_neg h10]
      have hlt : n / 10 < f := by omega
      obtain ⟨hall, hne, hval⟩ := ih (n / 10) hlt
      refine ⟨?_, ?_, ?_⟩
      · rw [List.all_append]
        simp [hall, digitChar_isDigit (n % 10) (Nat.mod_lt n (by norm_num))]
      · simp
      · rw [List.foldl_append, hval]
        simp only [List.foldl]
        rw [digitChar_toNat (n % 10) (Nat.mod_lt n (by norm_num))]
        omega

theorem parseField_natRepr (n : Nat) : parseField (natRepr n) = some n := by
  obtain ⟨hall, hne, hval⟩ := natReprAux_spec (n + 1) n (by omega)
  unfold natRepr
  cases hh : natReprAux (n + 1) n with
  | nil => exact absurd hh hne
  | cons x xs =>
    rw [hh] at hall hval
    simp [parseField, hall, hval]

theorem pad2_small (z : Int) (h0 : 0 ≤ z) (h10 : z < 10) :
    pad2 z = ['0', digitChar z.toNat] := by
  unfold pad2 natRepr
  rw [if_neg (by omega), if_pos h10]
  have ht : z.toNat < 10 := by omega
  simp [natReprAux, ht]

theorem parseField_two_digits (a b : Nat) (ha : a < 10) (hb : b < 10) :
    parseField [digitChar a, digitChar b] = some (a * 10 + b) := by
  simp [parseField, digitChar_isDigit a ha, digitChar_isDigit b hb,
    digitChar_toNat a ha, digitChar_toNat b hb]

theorem natRepr_two (t : Nat) (h1 : 10 ≤ t) (h2 : t < 100) :
    natRepr t = [digitChar (t / 10), digitChar (t % 10)] := by
  unfold natRepr
  obtain ⟨f, hf⟩ : ∃ f, t = f + 1 := ⟨t - 1, by omega⟩
  rw [hf]
  have hd : (f + 1) / 10 < 10 := by omega
  have hn : ¬ f + 1 < 10 := by omega
  simp [natReprAux, hn, hd]

theorem pad2_eq_digits (z : Int) (h0 : 0 ≤ z) (h100 : z < 100) :
    pad2 z = [digitChar (z.toNat / 10), digitChar (z.toNat % 10)] := by
  by_cases h10 : z < 10
  · rw [pad2_small z h0 h10]
    have h1 : z.toNat / 10 = 0 := by omega
    have h2 : z.toNat % 10 = z.toNat := by omega
    rw [h1, h2, show digitChar 0 = '0' from by decide]
  · unfold pad2
    rw [if_neg (by omega), if_neg h10]
    exact natRepr_two z.toNat (by omega) (by omega)

theorem parseField_pad2 (z : Int) (h : 0 ≤ z) : parseField (pad2 z) = some z.toNat := by
  by_cases h100 : z < 100
  · rw [pad2_eq_digits z h h100, parseField_two_digits _ _ (by omega)
      (Nat.mod_lt _ (by norm_num))]
    congr 1
    omega
  · unfold pad2
    rw [if_neg (by omega), if_neg (by omega)]
    exact parseField_natRepr z.toNat

theorem pad2_no_colon (z : Int) (h : 0 ≤ z) : ∀ c ∈ pad2 z, c ≠ ':' := by
  have hall : (pad2 z).all Char.isDigit = true := by
    by_cases h10 : z < 10
    · rw [pad2_small z h h10]
      simp [digitChar_isDigit z.toNat (by omega)]
    · unfold pad2
      rw [if_neg (by omega), if_neg h10]
      exact (natReprAux_spec (z.toNat + 1) z.toNat (by omega)).1
  intro c hc heq
  have hd := List.all_eq_true.mp hall c hc
  subst heq
  exact absurd hd (by decide)

theorem reparse_formatInt (n : Int) (h : 0 ≤ n) :
    reparseTimestamp (formatTimestampInt n) = some n := by
  have hs0 : 0 ≤ n % 60 := Int.emod_nonneg n (by norm_num)
  have hm0 : 0 ≤ n / 60 % 60 := Int.emod_nonneg _ (by norm_num)
  unfold formatTimestampInt
  by_cases hpos : 0 < n / 60 / 60
  · rw [if_pos hpos]
    have e0 : pad2 (n / 60 / 60) ++
        ':' :: pad2 (n / 60 % 60) ++ ':' :: pad2 (n % 60) =
        pad2 (n / 60 / 60) ++
          ':' :: (pad2 (n / 60 % 60) ++ ':' :: pad2 (n % 60)) := by
      simp
    rw [e0]
    have e1 := splitOnChar_append ':' (pad2 (n / 60 / 60))
      (pad2 (n / 60 % 60) ++ ':' :: pad2 (n % 60))
    have e2 := splitOnChar_append ':' (pad2 (n / 60 % 60)) (pad2 (n % 60))
    have e3 := splitOnChar_no_sep ':' _ (pad2_no_colon _ (le_of_lt hpos))
    have e4 := splitOnChar_no_sep ':' _ (pad2_no_colon _ hm0)
    have e5 := splitOnChar_no_sep ':' _ (pad2_no_colon _ hs0)
    unfold reparseTimestamp
    rw [e1, e2, e3, e4, e5]
    simp only [List.cons_append, List.nil_append]
    rw [parseField_pad2 _ (le_of_lt hpos), parseField_pad2 _ hm0, parseField_pad2 _ hs0]
    simp only [Option.some.injEq]
    rw [Int.toNat_of_nonneg (le_of_lt hpos), Int.toNat_of_nonneg hm0,
      Int.toNat_of_nonneg hs0]
    omega
  · rw [if_neg hpos]
    have e2 := splitOnChar_append ':' (pad2 (n / 60 % 60)) (pad2 (n % 60))
    have e4 := splitOnChar_no_sep ':' _ (pad2_no_colon _ hm0)
    have e5 := splitOnChar_no_sep ':' _ (pad2_no_colon _ hs0)
    unfold reparseTimestamp
    rw [e2, e4, e5]
    simp only [List.cons_append, List.nil_append]
    rw [parseField_pad2 _ hm0, parseField_pad2 _ hs0]
    simp only [Option.some.injEq]
    rw [Int.toNat_of_nonneg hm0, Int.toNat_of_nonneg hs0]
    omega

theorem pyInt_intCast (z : Int) : pyInt (z : ℚ) = z := by
  unfold pyInt
  by_cases h : (0 : ℚ) ≤ (z : ℚ)
  · rw [if_pos h, Int.floor_intCast]
  · rw [if_neg h, Int.ceil_intCast]

theorem formatInt_nonpos (n : Int) (h : n ≤ 0) :
    formatTimestampInt n = formatTimestampInt (n % 3600) ∧
    tsShapeOK (formatTimestampInt n) = true ∧ (formatTimestampInt n).length = 5 := by
  have h1 : ¬ 0 < n / 60 / 60 := by omega
  have h2 : ¬ 0 < n % 3600 / 60 / 60 := by omega
  have hmeq : n / 60 % 60 = n % 3600 / 60 % 60 := by omega
  have hseq : n % 60 = n % 3600 % 60 := by omega
  have hm0 : 0 ≤ n / 60 % 60 := Int.emod_nonneg _ (by norm_num)
  have hm60 : n / 60 % 60 < 60 := Int.emod_lt_of_pos _ (by norm_num)
  have hs0 : 0 ≤ n % 60 := Int.emod_nonneg _ (by norm_num)
  have hs60 : n % 60 < 60 := Int.emod_lt_of_pos _ (by norm_num)
  obtain ⟨a, b, hab, hda, hdb⟩ :
      ∃ a b, pad2 (n / 60 % 60) = [a, b] ∧ a.isDigit = true ∧ b.isDigit = true := by
    rw [pad2_eq_digits _ hm0 (by omega)]
    exact ⟨_, _, rfl, digitChar_isDigit _ (by omega),
      digitChar_isDigit _ (Nat.mod_lt _ (by norm_num))⟩
  obtain ⟨c, d, hcd, hdc, hdd⟩ :
      ∃ c d, pad2 (n % 60) = [c, d] ∧ c.isDigit = true ∧ d.isDigit = true := by
    rw [pad2_eq_digits _ hs0 (by omega)]
    exact ⟨_, _, rfl, digitChar_isDigit _ (by omega),
      digitChar_isDigit _ (Nat.mod_lt _ (by norm_num))⟩
  refine ⟨?_, ?_, ?_⟩
  · unfold formatTimestampInt
    rw [if_neg h1, if_neg h2, hmeq, hseq]
  · unfold formatTimestampInt
    rw [if_neg h1, hab, hcd]
    simp [tsShapeOK, hda, hdb, hdc, hdd]
  · unfold formatTimestampInt
    rw [if_neg h1, hab, hcd]
    rfl

/-! Projections of the parser result. -/

theorem parse_key_topics (g : Str) :
    (parseGeminiOutput g).key_topics = keyTopicsOf g := rfl

theorem parse_exec_summary (g : Str) :
    (parseGeminiOutput g).executive_summary = execSummaryOf g := rfl

theorem searchExec_hdr (body : Str) :
    searchFirst tryExecAt (execHdr ++ body) = some (execCapture body) := rfl

/-! The claims. -/

/-- C1 (counterexample): on the input
    `## ⏱️ Key Topics & Timestamps\n\t- **[00:10]** x` no raw line of the
    input matches the anchored bullet pattern (the bullet line starts
    with a tab), yet the parser produces one key topic, because the code
    strips each line before matching.  This refutes the claim that
    `key_topics` is empty whenever no line of the input matches the
    bullet pattern. -/
theorem c1_counterexample :
    ((splitLines ("## ⏱️ Key Topics & Timestamps\n\t- **[00:10]** x").data).all
      fun l => (bulletMatch l).isNone) = true ∧
    (parseGeminiOutput ("## ⏱️ Key Topics & Timestamps\n\t- **[00:10]** x").data).key_topics
      = [⟨"00:10".data, "x".data⟩] := by
  decide

/-- C1 (amended): the parser is a total function, and `key_topics` is
    empty whenever no line of the input, after stripping surrounding
    whitespace, matches the bullet pattern
    `- **[<timestamp>]** <topic>`. -/
theorem c1_no_bullet_no_topics (g : Str)
    (h : ∀ l ∈ splitLines g, bulletMatch (pyStrip l) = none) :
    (parseGeminiOutput g).key_topics = [] := by
  rw [parse_key_topics]
  exact keyTopicsOf_eq_nil g h

/-- C1 (witness): a concrete input with no bullet-shaped line parses to
    an empty key-topic list. -/
theorem c1_witness :
    (∀ l ∈ splitLines ("hello\nworld").data, bulletMatch (pyStrip l) = none) ∧
    (parseGeminiOutput ("hello\nworld").data).key_topics = [] :=
  ⟨by decide, c1_no_bullet_no_topics _ (by decide)⟩

/-- C2: on an input exactly matching the documented template, the parser
    returns the title `Intro to Go`, the trimmed summary paragraph, and
    the two key topics in order with timestamps `00:10` and
    `01:02:03`. -/
theorem c2_template_parse :
    parseGeminiOutput ("## Title: Intro to Go\n## 📝 Executive Summary\nThis video introduces the Go language and its toolchain.\n\n## ⏱️ Key Topics & Timestamps\n- **[00:10]** Setup\n- **[01:02:03]** Wrap-up").data =
    ⟨"Intro to Go".data,
     "This video introduces the Go language and its toolchain.".data,
     [⟨"00:10".data, "Setup".data⟩, ⟨"01:02:03".data, "Wrap-up".data⟩]⟩ := by
  decide

/-- C3 (counterexample): on `## 📝 Executive Summary\n.foo` the title
    falls through to the final fallback with the extracted summary
    `.foo`, and the parser returns the whole summary `.foo` — not the
    claimed `first 100 characters plus an ellipsis` (`.foo...`). -/
theorem c3_counterexample :
    (parseGeminiOutput ("## 📝 Executive Summary\n.foo").data).title = ".foo".data ∧
    ".foo".data ≠ ".foo...".data := by
  decide

/-- C3 (amended): when the title regex finds nothing, the title is
    produced by the fallback chain: (a) the stripped first line when it
    does not start with `##`; (b) otherwise, with a nonempty summary
    whose text before the first period strips to nonempty, that text,
    truncated to 97 characters plus an ellipsis when longer than 100;
    (c) otherwise, with a nonempty summary, the whole summary when at
    most 100 characters, else its first 100 characters plus an
    ellipsis. -/
theorem c3_fallback_chain (g : Str) (h : titleRegexOf g = none) :
    (parseGeminiOutput g).title = titleFallbackChain g := by
  simp only [parseGeminiOutput, titleFallbackChain, h]
  by_cases ha : startsHH (firstLine g) = true
  · by_cases hes : execSummaryOf g = []
    · simp [ha, hes]
    · by_cases hfs : pyStrip ((execSummaryOf g).takeWhile (fun c => c != '.')) = []
      · simp [ha, hes, hfs]
      · have hne : (if 100 <
            (pyStrip ((execSummaryOf g).takeWhile (fun c => c != '.'))).length then
            (pyStrip ((execSummaryOf g).takeWhile (fun c => c != '.'))).take 97 ++
              ellipsis
          else pyStrip ((execSummaryOf g).takeWhile (fun c => c != '.'))) ≠ [] := by
          split
          · simp [ellipsis]
          · exact hfs
        simp [ha, hes, hfs, hne]
  · by_cases hfl : pyStrip (firstLine g) = []
    · by_cases hes : execSummaryOf g = []
      · simp [ha, hfl, hes]
      · by_cases hfs : pyStrip ((execSummaryOf g).takeWhile (fun c => c != '.')) = []
        · simp [ha, hfl, hes, hfs]
        · have hne : (if 100 <
              (pyStrip ((execSummaryOf g).takeWhile (fun c => c != '.'))).length then
              (pyStrip ((execSummaryOf g).takeWhile (fun c => c != '.'))).take 97 ++
                ellipsis
            else pyStrip ((execSummaryOf g).takeWhile (fun c => c != '.'))) ≠ [] := by
            split
            · simp [ellipsis]
            · exact hfs
          simp [ha, hfl, hes, hfs, hne]
    · simp [ha, hfl]

/-- C3 (witness): on an input with no title line and a plain first line
    the parser's title equals the fallback chain's result. -/
theorem c3_witness :
    titleRegexOf ("hello").data = none ∧
    (parseGeminiOutput ("hello").data).title = titleFallbackChain ("hello").data :=
  ⟨by decide, c3_fallback_chain _ (by decide)⟩

/-- C4 (counterexample): a heading containing `Executive Summary` but
    lacking the `📝` emoji is not matched: the extracted summary is
    empty, not the following paragraph `Hello` — refuting the claim that
    any heading containing `Executive Summary` starts the summary. -/
theorem c4_counterexample :
    (parseGeminiOutput ("## Executive Summary\nHello").data).executive_summary = [] ∧
    ("Hello").data ≠ ([] : Str) := by
  decide

/-- C4 (amended): the summary is captured only after the exact heading
    `## 📝 Executive Summary` followed by a newline; when the input is
    that heading followed by a body containing no blank-line key-topics
    terminator, the summary is exactly the body, trimmed. -/
theorem c4_exec_summary_capture (body : Str) (h : hasStopper body = false) :
    (parseGeminiOutput (execHdr ++ body)).executive_summary = pyStrip body := by
  rw [parse_exec_summary]
  unfold execSummaryOf
  rw [searchExec_hdr body, execCapture_no_stopper body h]

/-- C4 (witness): a concrete body after the exact emoji heading is
    extracted verbatim (trimmed). -/
theorem c4_witness :
    hasStopper ("Hello world.").data = false ∧
    (parseGeminiOutput (execHdr ++ ("Hello world.").data)).executive_summary
      = pyStrip ("Hello world.").data :=
  ⟨by decide, c4_exec_summary_capture _ (by decide)⟩

/-- C5: with the transcript unavailable, a successful download to
    `audio.mp3` (the file exists) and an audio analysis that raises,
    `run_agent` of `agent_scraper.py` returns `None` without deleting
    the audio file, while `main` of `youtube-summarizer/main.py` deletes
    it in its `finally` block — the guaranteed-deletion claim holds for
    the latter and is violated by the former. -/
theorem c5_agent_leaks_audio_file :
    (agentPlanB ⟨some ("audio.mp3").data, true,
      .error ("audio analysis failed").data⟩).audioFileDeleted = false ∧
    (agentPlanB ⟨some ("audio.mp3").data, true,
      .error ("audio analysis failed").data⟩).result = none ∧
    (mainPlanB ⟨some ("audio.mp3").data, true,
      .error ("audio analysis failed").data⟩).audioFileDeleted = true :=
  ⟨rfl, rfl, rfl⟩

/-- C6: whenever the transcript fetch returns a nonempty segment list
    and the text analysis succeeds, neither orchestrator invokes the
    Audio Acquirer. -/
theorem c6_no_audio_on_transcript_success (env : RunEnv)
    (segs : List TranscriptSeg) (a : VideoAnalysis)
    (h1 : env.transcriptResult = .ok segs) (h2 : segs ≠ [])
    (h3 : env.textAnalysis = .ok a) :
    (mainRun env).audioInvoked = false ∧ (agentRun env).audioInvoked = false := by
  unfold mainRun agentRun
  rw [h1, h3]
  cases segs with
  | nil => exact absurd rfl h2
  | cons s ss => exact ⟨rfl, rfl⟩

/-- C6 (witness): a concrete run with one transcript segment and a
    successful analysis never invokes the audio download. -/
theorem c6_witness :
    (RunEnv.mk (.ok [⟨0, ("hi").data⟩]) (.ok ⟨("t").data, ("s").data, []⟩)
        ⟨none, false, .error []⟩).transcriptResult = .ok [⟨0, ("hi").data⟩] ∧
    ([⟨0, ("hi").data⟩] : List TranscriptSeg) ≠ [] ∧
    (mainRun (RunEnv.mk (.ok [⟨0, ("hi").data⟩]) (.ok ⟨("t").data, ("s").data, []⟩)
        ⟨none, false, .error []⟩)).audioInvoked = false ∧
    (agentRun (RunEnv.mk (.ok [⟨0, ("hi").data⟩]) (.ok ⟨("t").data, ("s").data, []⟩)
        ⟨none, false, .error []⟩)).audioInvoked = false :=
  ⟨rfl, by simp,
    (c6_no_audio_on_transcript_success _ _ _ rfl (by simp) rfl).1,
    (c6_no_audio_on_transcript_success _ _ _ rfl (by simp) rfl).2⟩

/-- C7 (counterexample): with a poll sequence ending in FAILED, the
    analyzer version submits the generation request and returns a parse
    of its output instead of raising; only the auto_scraper version
    raises without submitting.  This refutes the claim that the audio
    analysis raises on FAILED rather than submitting. -/
theorem c7_counterexample :
    analyzerAnalyzeAudio .processing [.failed] ("t").data
      = some ⟨true, .ok (parseGeminiOutput ("t").data)⟩ ∧
    autoAnalyzeAudio .processing [.failed] ("t").data
      = some ⟨false, .error audioFailedMsg⟩ :=
  ⟨rfl, rfl⟩

/-- C7 (amended): all three audio-analysis functions poll until the
    uploaded file leaves the processing state; when the state reached is
    FAILED, `auto_scraper.py` raises without submitting, while
    `analyzer.py` and `agent_scraper.py` submit the generation request
    regardless. -/
theorem c7_failed_state_behavior (init : GFileState) (upds : List GFileState)
    (g : Str) (h : pollLoop init upds = some .failed) :
    autoAnalyzeAudio init upds g = some ⟨false, .error audioFailedMsg⟩ ∧
    analyzerAnalyzeAudio init upds g = some ⟨true, .ok (parseGeminiOutput g)⟩ ∧
    agentAnalyzeAudio init upds g = some ⟨true, .ok (parseGeminiOutput g)⟩ := by
  unfold autoAnalyzeAudio analyzerAnalyzeAudio agentAnalyzeAudio
  rw [h]
  exact ⟨rfl, rfl, rfl⟩

/-- C7 (witness): a concrete FAILED poll sequence. -/
theorem c7_witness :
    pollLoop .processing [.failed] = some .failed ∧
    autoAnalyzeAudio .processing [.failed] ("x").data
      = some ⟨false, .error audioFailedMsg⟩ :=
  ⟨rfl, (c7_failed_state_behavior .processing [.failed] ("x").data rfl).1⟩

/-- C8 (counterexample): the bullet line `- **[00:10]**` produces a
    KeyTopic whose topic is the empty string, refuting the claim that
    every produced topic is nonempty. -/
theorem c8_counterexample :
    ((parseGeminiOutput ("## ⏱️ Key Topics & Timestamps\n- **[00:10]**").data).key_topics.map
      KeyTopic.topic) = [[]] := by
  decide

/-- C8 (amended): every KeyTopic produced by the parser has a timestamp
    matching `\d{2}:\d{2}` or `\d{2}:\d{2}:\d{2}`; the topic may be
    empty. -/
theorem c8_timestamp_invariant (g : Str) (kt : KeyTopic)
    (h : kt ∈ (parseGeminiOutput g).key_topics) :
    tsShapeOK kt.timestamp = true :=
  keyTopicsOf_shape g kt h

/-- C8 (witness): a concrete parsed key topic has a well-shaped
    timestamp. -/
theorem c8_witness :
    (⟨"00:10".data, "Setup".data⟩ : KeyTopic) ∈
      (parseGeminiOutput ("## ⏱️ Key Topics & Timestamps\n- **[00:10]** Setup").data).key_topics ∧
    tsShapeOK ("00:10").data = true :=
  ⟨by decide,
    c8_timestamp_invariant
      ("## ⏱️ Key Topics & Timestamps\n- **[00:10]** Setup").data
      ⟨"00:10".data, "Setup".data⟩ (by decide)⟩

/-- C9: the codec satisfies `format(65) = 01:05`, `format(3661) =
    01:01:01`, `format(0) = 00:00`, and for every non-negative rational
    input, re-parsing the output as `H:M:S` or `M:S` and recomputing
    total seconds yields the floored input. -/
theorem c9_roundtrip :
    formatTimestamp 65 = "01:05".data ∧
    formatTimestamp 3661 = "01:01:01".data ∧
    formatTimestamp 0 = "00:00".data ∧
    ∀ q : ℚ, 0 ≤ q → reparseTimestamp (formatTimestamp q) = some ⌊q⌋ := by
  refine ⟨?_, ?_, ?_, ?_⟩
  · unfold formatTimestamp
    rw [show (65 : ℚ) = ((65 : Int) : ℚ) by norm_num, pyInt_intCast]
    decide
  · unfold formatTimestamp
    rw [show (3661 : ℚ) = ((3661 : Int) : ℚ) by norm_num, pyInt_intCast]
    decide
  · unfold formatTimestamp
    rw [show (0 : ℚ) = ((0 : Int) : ℚ) by norm_num, pyInt_intCast]
    decide
  · intro q hq
    unfold formatTimestamp pyInt
    rw [if_pos hq]
    exact reparse_formatInt _ (Int.floor_nonneg.mpr hq)

/-- C9 (witness): the round trip at the concrete input 125. -/
theorem c9_witness :
    (0 : ℚ) ≤ 125 ∧ reparseTimestamp (formatTimestamp 125) = some ⌊(125 : ℚ)⌋ :=
  ⟨by norm_num, c9_roundtrip.2.2.2 125 (by norm_num)⟩

/-- C10: on negative inputs the codec neither raises nor clamps:
    `format(-5) = 59:55`, and for every negative rational input the
    output equals the rendering of the truncated value modulo one hour
    and is a five-character string of the valid `MM:SS` shape. -/
theorem c10_negative_wraps :
    formatTimestamp (-5) = "59:55".data ∧
    ∀ q : ℚ, q < 0 →
      formatTimestamp q = formatTimestampInt (pyInt q % 3600) ∧
      tsShapeOK (formatTimestamp q) = true ∧ (formatTimestamp q).length = 5 := by
  constructor
  · unfold formatTimestamp
    rw [show (-5 : ℚ) = ((-5 : Int) : ℚ) by norm_num, pyInt_intCast]
    decide
  · intro q hq
    have hle : pyInt q ≤ 0 := by
      unfold pyInt
      rw [if_neg (not_le.mpr hq)]
      exact Int.ceil_le.mpr (by exact_mod_cast le_of_lt hq)
    unfold formatTimestamp
    exact formatInt_nonpos (pyInt q) hle

/-- C10 (witness): the wrap property at the concrete input -1. -/
theorem c10_witness :
    (-1 : ℚ) < 0 ∧
    (formatTimestamp (-1) = formatTimestampInt (pyInt (-1) % 3600) ∧
     tsShapeOK (formatTimestamp (-1)) = true ∧ (formatTimestamp (-1)).length = 5) :=
  ⟨by norm_num, c10_negative_wraps.2 (-1) (by norm_num)⟩

end YTSum
